import Mathlib

/-!
Shallow embedding of the enjin/minter-typescript repository
(`src/main.ts`, `src/utils.ts`, `src/multiTokens.ts`): the batched
transaction submission and retry engine, the event matcher, the batch
planner and the mint orchestrator, together with theorems settling the
spec's claims about them.
-/

namespace Minter

/-! ## Data model -/

/-- A chain event: identified by a (module, name) pair, carrying a
positional data payload (`src/utils.ts`, `Event`; numeric payload fields
suffice for the claims, which only read `event.data[0]` as a number). -/
structure Event where
  module : String
  name : String
  data : List Nat
deriving DecidableEq, Repr

/-- An event descriptor (`AugmentedEvent` in `src/utils.ts`): the static
(module, name) pair to look for; `eventIs.is e` compares these. -/
structure EventDescriptor where
  module : String
  name : String
deriving DecidableEq, Repr

/-- `eventIs.is(event)` from `src/utils.ts`: the descriptor matches an
event when module and name agree. -/
def descriptorIs (d : EventDescriptor) (e : Event) : Bool :=
  e.module == d.module && e.name == d.name

/-! ## Event matcher (`src/utils.ts`, `getEventFromEvents` /
`getEventFromEventsOrThrow`) -/

/-- `getEventFromEvents` (`src/utils.ts` lines 272-283):
`events.find(event => eventIs.is(event))`, then a redundant re-check of
the found element before returning it. -/
def getEventFromEvents (events : List Event) (d : EventDescriptor) :
    Option Event :=
  match events.find? (fun event => descriptorIs d event) with
  | none => none
  | some needle => if descriptorIs d needle then some needle else none

/-- `getEventFromEventsOrThrow` (`src/utils.ts` lines 248-260): returns
the found event, or throws "unable to find event <name>" when
`getEventFromEvents` returned `undefined`. -/
def getEventFromEventsOrThrow (events : List Event) (d : EventDescriptor) :
    Except String Event :=
  match getEventFromEvents events d with
  | none => Except.error ("unable to find event " ++ d.name)
  | some needle => Except.ok needle

/-! ## Batch planner (`src/main.ts` lines 59-86): the plan implicit in
`main`'s batch loop.  `fullBatches = floor(total / B)` batches of length
`B` at offsets `j*B+1`, then one remainder batch of length `total % B`
at offset `fullBatches*B+1` when the remainder is positive. -/

/-- The sequence of `(startTokenId, count)` pairs the `main` loop passes
to `mintBatch` for one collection. -/
def plan (total B : Nat) : List (Nat × Nat) :=
  (List.range (total / B)).map (fun j => (j * B + 1, B)) ++
    (if total % B > 0 then [(total / B * B + 1, total % B)] else [])

/-- The `(collectionId, startTokenId, count)` triples of the
`mintBatch(client, api, testAccount, collectionId, start, count)` calls
issued for one collection (`src/main.ts` lines 63-85). -/
def mintBatchCalls (collectionId total B : Nat) : List (Nat × Nat × Nat) :=
  (plan total B).map (fun e => (collectionId, e.1, e.2))

theorem plan_length (total B : Nat) :
    (plan total B).length = total / B + (if total % B > 0 then 1 else 0) := by
  unfold plan
  rcases Nat.eq_zero_or_pos (total % B) with h | h <;> simp [h]

theorem plan_get (total B : Nat) (i : Nat) (h : i < (plan total B).length) :
    (plan total B).get ⟨i, h⟩ =
      (i * B + 1, if i < total / B then B else total % B) := by
  have hlen := plan_length total B
  rw [List.get_eq_getElem, List.getElem_eq_iff]
  show (plan total B)[i]? = some (i * B + 1, if i < total / B then B else total % B)
  rcases Nat.lt_or_ge i (total / B) with hi | hi
  · rw [show plan total B =
          (List.range (total / B)).map (fun j => (j * B + 1, B)) ++
            (if total % B > 0 then [(total / B * B + 1, total % B)] else []) from rfl,
        List.getElem?_append_left (by simpa using hi)]
    simp [List.getElem?_range hi, hi]
  · have hrem : total % B > 0 := by
      by_contra hc
      rw [hlen] at h
      simp [Nat.eq_zero_of_not_pos (fun hp => hc hp)] at h
      omega
    have hieq : i = total / B := by
      rw [hlen] at h
      simp [hrem] at h
      omega
    subst hieq
    rw [show plan total B =
          (List.range (total / B)).map (fun j => (j * B + 1, B)) ++
            (if total % B > 0 then [(total / B * B + 1, total % B)] else []) from rfl,
        List.getElem?_append_right (by simp)]
    simp [hrem]

/-! ## Transaction submitter, single attempt (`src/utils.ts`,
`signAndSendOnce`, lines 163-186) -/

/-- The chain header fetched by `api.rpc.chain.getHeader()` at the start
of an attempt. -/
structure ChainHeader where
  number : Nat
  hash : String
deriving DecidableEq, Repr

/-- The options `signAndSendOnce` passes to `.signAndSend`: the nonce and
the `ExtrinsicEra` built from the fetched header. -/
structure SigningParams where
  nonce : Int
  eraCurrent : Nat
  eraPeriod : Nat
  blockHash : String
deriving DecidableEq, Repr

/-- One status-stream callback value (`result` in `signAndSendOnce`):
either `result.isError` holds (with the stringified result), or the
status is in-block / finalized carrying the ordered event list of that
inclusion (`result.events.map(({event}) => event)`), or a non-terminal
status (ready, broadcast, ...). -/
inductive TxStatus where
  | isError (stringified : String)
  | isInBlock (events : List Event)
  | isFinalized (events : List Event)
  | other
deriving DecidableEq, Repr

/-- What the network does with a broadcast: the `.signAndSend(...)`
promise itself rejects (`.catch` branch), or the subscription yields a
status stream, consumed in order. -/
inductive BroadcastOutcome where
  | rejected (error : String)
  | statuses (stream : List TxStatus)
deriving DecidableEq, Repr

/-- The status callback of `signAndSendOnce`, run over the stream in
order: rejects at the first `isError`, resolves at the first
`isInBlock`/`isFinalized` with that inclusion's events; `none` when no
terminal status ever arrives (the promise never settles). -/
def resolveStatuses : List TxStatus → Option (Except String (List Event))
  | [] => none
  | TxStatus.isError s :: _ =>
      some (Except.error ("transaction error: " ++ s))
  | TxStatus.isInBlock events :: _ => some (Except.ok events)
  | TxStatus.isFinalized events :: _ => some (Except.ok events)
  | TxStatus.other :: rest => resolveStatuses rest

/-- `signAndSendOnce` (`src/utils.ts` lines 163-186): fetches the current
header, signs with nonce `-1` and an era of period 1024 anchored at the
fetched block number, broadcasts, and settles on the first terminal
status.  Returns the signing options used together with the settlement
(`none` = the promise hangs). -/
def signAndSendOnce (head : ChainHeader)
    (broadcast : SigningParams → BroadcastOutcome) :
    SigningParams × Option (Except String (List Event)) :=
  let params : SigningParams :=
    { nonce := -1, eraCurrent := head.number, eraPeriod := 1024,
      blockHash := head.hash }
  (params,
    match broadcast params with
    | BroadcastOutcome.rejected error => some (Except.error error)
    | BroadcastOutcome.statuses stream => resolveStatuses stream)

/-! ## "Retrying" submitter (`src/utils.ts`, `signAndSend`,
lines 200-214).  The single-attempt submitter is abstracted as a stub
`once : Nat → Except String (List Event)` giving the outcome of the n-th
call, with a call counter threaded through so the number of attempts
actually made is observable. -/

/-- `signAndSend(origin, submitExtrinsic, attempt = 0, api)`
(`src/utils.ts` lines 200-214): if `attempt > 10`, throws
"unable to send transaction"; otherwise runs `signAndSendOnce` once and
— `catch (e) { throw e }` — rethrows any failure unchanged.  Returns the
result paired with the updated call count of the single-attempt stub. -/
def signAndSend (attempt : Nat) (once : Nat → Except String (List Event))
    (calls : Nat) : Except String (List Event) × Nat :=
  if attempt > 10 then (Except.error "unable to send transaction", calls)
  else
    match once calls with
    | Except.ok events => (Except.ok events, calls + 1)
    | Except.error e => (Except.error e, calls + 1)

/-! ## Typed-event submitter (`src/utils.ts`,
`signAndSendReturningEvent`, lines 228-236) -/

/-- `signAndSendReturningEvent`: awaits `signAndSend(origin, tx, 0, api)`
(failures propagate verbatim) and applies `getEventFromEventsOrThrow` to
the returned events. -/
def signAndSendReturningEvent (once : Nat → Except String (List Event))
    (d : EventDescriptor) : Except String Event × Nat :=
  match signAndSend 0 once 0 with
  | (Except.error e, calls) => (Except.error e, calls)
  | (Except.ok events, calls) => (getEventFromEventsOrThrow events d, calls)

/-! ## Startup configuration check (`src/main.ts` lines 8-22) -/

/-- Outcome of the module-level startup checks: `process.exit(code)` or
fall through into `main()`. -/
inductive StartupOutcome where
  | exitWith (code : Nat)
  | proceed
deriving DecidableEq, Repr

/-- `BOT_KEY` truthiness in JS: `!BOT_KEY` is true when the variable is
unset or the empty string. -/
def botKeyTruthy : Option String → Bool
  | none => false
  | some s => !(s == "")

/-- The startup checks of `src/main.ts` lines 14-22, in source order:
exit 1 when `TOKEN_COUNT_IN_BATCH > 250`, exit 1 when `!BOT_KEY`,
otherwise proceed to `main()`. -/
def startupCheck (tokenCountInBatch : Int) (botKey : Option String) :
    StartupOutcome :=
  if tokenCountInBatch > 250 then StartupOutcome.exitWith 1
  else if !botKeyTruthy botKey then StartupOutcome.exitWith 1
  else StartupOutcome.proceed

/-! ## MultiTokens pallet client (`src/multiTokens.ts`) -/

/-- `MarketBehavior` (`src/multiTokens.ts`). -/
inductive MarketBehavior where
  | hasRoyalty (beneficiary : String) (percentage : Nat)
  | isCurrency
deriving DecidableEq, Repr

/-- `TokenCap` (`src/multiTokens.ts`). -/
inductive TokenCap where
  | singleMint
  | supply (n : Nat)
deriving DecidableEq, Repr

/-- `SufficiencyParam` (`src/multiTokens.ts`). -/
inductive SufficiencyParam where
  | insufficient (unitPrice : Nat)
  | sufficient (minimumBalance : Nat)
deriving DecidableEq, Repr

/-- `MintCreateToken` (`src/multiTokens.ts`): optional fields are
`Option`, `none` standing for an absent/undefined field. -/
structure MintCreateToken where
  tokenId : Nat
  initialSupply : Nat
  unitPrice : Option Nat
  sufficiency : Option SufficiencyParam
  cap : Option TokenCap
  behavior : Option MarketBehavior
  listingForbidden : Option Bool
  attributes : List (String × String)
deriving DecidableEq, Repr

/-- `fixMintCreateToken` (`src/multiTokens.ts` lines 164-175): when the
registry has the type `EpMultiTokensPolicyMintSufficiencyParam` and
`unitPrice` is defined, returns `{ sufficiency: { insufficient:
{ unitPrice } }, ...createToken }` — the spread puts the new key first,
so a `sufficiency` key already on `createToken` wins; otherwise returns
`createToken` unchanged. -/
def fixMintCreateToken (hasSufficiencyType : Bool)
    (createToken : MintCreateToken) : MintCreateToken :=
  match hasSufficiencyType, createToken.unitPrice with
  | true, some up =>
      { createToken with
        sufficiency :=
          match createToken.sufficiency with
          | some s => some s
          | none => some (SufficiencyParam.insufficient up) }
  | _, _ => createToken

/-- A `batchMint` recipient's `params` field: `{ createToken: ... }` or
`{ mint: ... }` (`src/multiTokens.ts`). -/
inductive MintParams where
  | createToken (value : MintCreateToken)
  | mint (tokenId amount : Nat) (unitPrice : Option Nat)
deriving DecidableEq, Repr

/-- A `batchMint` recipient (`src/multiTokens.ts`). -/
structure Recipient where
  accountId : String
  params : MintParams
deriving DecidableEq, Repr

/-- The recipient fixup inside `batchMint` (`src/multiTokens.ts` lines
138-147): applies `fixMintCreateToken` to every `createToken` recipient
and leaves `mint` recipients untouched; the fixed list is what the
`multiTokens.batchMint` extrinsic is built from. -/
def batchMintRecipients (hasSufficiencyType : Bool)
    (recipients : List Recipient) : List Recipient :=
  recipients.map (fun recipient =>
    match recipient.params with
    | MintParams.createToken ct =>
        { recipient with
          params :=
            MintParams.createToken (fixMintCreateToken hasSufficiencyType ct) }
    | MintParams.mint _ _ _ => recipient)

/-! ## Mint orchestrator (`src/main.ts`) -/

/-- The `batchPayload` built by `mintBatch` (`src/main.ts` lines
110-127): one `createToken` recipient per token id in
`startTokenId .. startTokenId+count-1`, each with `initialSupply: 1`,
the four attributes, and no `unitPrice`. -/
def mintBatchPayload (address : String)
    (collectionId startTokenId count : Nat) : List Recipient :=
  (List.range count).map (fun i =>
    let tokenId := startTokenId + i
    { accountId := address,
      params := MintParams.createToken
        { tokenId := tokenId, initialSupply := 1, unitPrice := none,
          sufficiency := none, cap := none, behavior := none,
          listingForbidden := none,
          attributes :=
            [("id", toString tokenId),
             ("name", "test-" ++ toString tokenId),
             ("description", "test-" ++ toString tokenId),
             ("collectionId", toString collectionId)] } })

/-- `mintBatch` (`src/main.ts` lines 102-142): builds the payload,
submits it through `signAndSend`, and absorbs any submission failure in
its `try`/`catch` (logging it); the function itself always returns
normally.  `submit` abstracts `signAndSend` applied to the batch-mint
extrinsic built from the payload; the returned `Bool` records which log
branch ran (success / error). -/
def mintBatch (submit : List Recipient → Except String (List Event))
    (address : String) (collectionId startTokenId count : Nat) :
    Except String Bool :=
  let batchPayload := mintBatchPayload address collectionId startTokenId count
  match submit batchPayload with
  | Except.ok _ => Except.ok true
  | Except.error _ => Except.ok false

/-- The batch loop of `main` for one collection (`src/main.ts` lines
63-85): awaits `mintBatch` for every plan entry in order, inside the
same `async` function, so a rejection would abort the remaining
entries. -/
def runCollectionBatches (submit : List Recipient → Except String (List Event))
    (address : String) (collectionId : Nat) :
    List (Nat × Nat) → Except String (List Bool)
  | [] => Except.ok []
  | entry :: rest => do
      let ok ← mintBatch submit address collectionId entry.1 entry.2
      let results ← runCollectionBatches submit address collectionId rest
      pure (ok :: results)

/-- One observable action of the `main` loop: submitting a
create-collection transaction, or a `mintBatch(client, api, account,
collectionId, startTokenId, count)` call. -/
inductive Action where
  | createCollection (collection : Nat)
  | mintBatchCall (collectionId startTokenId count : Nat)
deriving DecidableEq, Repr

/-- `Number(collectionCreatedEvent.data[0])` (`src/main.ts` line 56):
the collection identifier read from the first data field of the
confirmed `CollectionCreated` event (`headD 0` models the numeric
coercion of the field). -/
def extractCollectionId (ev : Event) : Nat := ev.data.headD 0

/-- The collection loop of `main` (`src/main.ts` lines 44-86) over a
list of collection indices: for each collection, submit the creation and
await its `CollectionCreated` event via `signAndSendReturningEvent`
(abstracted as `createOutcome`); on failure the rejection propagates out
of `main` and the run aborts; on success extract the collection id and
issue the planned `mintBatch` calls.  Returns the ordered action trace
and the aborting error, if any. -/
def runMain (createOutcome : Nat → Except String Event) (total B : Nat) :
    List Nat → List Action × Option String
  | [] => ([], none)
  | c :: rest =>
    match createOutcome c with
    | Except.error msg => ([Action.createCollection c], some msg)
    | Except.ok ev =>
        let collectionId := extractCollectionId ev
        let batchActions := (plan total B).map
          (fun e => Action.mintBatchCall collectionId e.1 e.2)
        let next := runMain createOutcome total B rest
        (Action.createCollection c :: (batchActions ++ next.1), next.2)

/-- `main`'s loop runs `collection = 1 .. COLLECTION_COUNT`
(`src/main.ts` line 44). -/
def mainTrace (createOutcome : Nat → Except String Event)
    (collectionCount total B : Nat) : List Action × Option String :=
  runMain createOutcome total B (List.range' 1 collectionCount)

/-! ## Helper lemmas -/

/-- The redundant re-check inside `getEventFromEvents` never changes the
result: the function is `events.find?` on the descriptor match. -/
theorem getEventFromEvents_eq_find? (events : List Event)
    (d : EventDescriptor) :
    getEventFromEvents events d
      = events.find? (fun event => descriptorIs d event) := by
  unfold getEventFromEvents
  cases hf : events.find? (fun event => descriptorIs d event) with
  | none => rfl
  | some needle => simp [List.find?_some hf]

theorem getEventFromEvents_mem_matches {events : List Event}
    {d : EventDescriptor} {ev : Event}
    (h : getEventFromEvents events d = some ev) :
    ev ∈ events ∧ descriptorIs d ev = true := by
  rw [getEventFromEvents_eq_find?] at h
  exact ⟨List.mem_of_find?_eq_some h, by simpa using List.find?_some h⟩

/-- Sample data used by the closed witness statements. -/
def sampleEvent : Event :=
  { module := "multiTokens", name := "CollectionCreated", data := [42] }

def sampleDescriptor : EventDescriptor :=
  { module := "multiTokens", name := "CollectionCreated" }

def sampleOnce : Nat → Except String (List Event) :=
  fun _ => Except.ok [sampleEvent]

/-! ## Claim theorems -/

/-- C6 (amended): `getEventFromEvents` returns the first event in
sequence order matching the descriptor, `none` when no event matches;
`getEventFromEventsOrThrow` returns the same first match and raises the
descriptive error "unable to find event <descriptor name>" exactly when
no event matches. -/
theorem eventMatcher_first_match (events : List Event) (d : EventDescriptor) :
    (∀ ev, getEventFromEvents events d = some ev ↔
       descriptorIs d ev = true ∧
         ∃ l1 l2, events = l1 ++ ev :: l2 ∧ ∀ x ∈ l1, descriptorIs d x = false)
  ∧ (getEventFromEvents events d = none ↔
       ∀ x ∈ events, descriptorIs d x = false)
  ∧ (∀ ev, getEventFromEventsOrThrow events d = Except.ok ev ↔
       getEventFromEvents events d = some ev)
  ∧ (getEventFromEventsOrThrow events d
       = Except.error ("unable to find event " ++ d.name) ↔
     ∀ x ∈ events, descriptorIs d x = false) := by
  have hfind := getEventFromEvents_eq_find? events d
  refine ⟨fun ev => ?_, ?_, fun ev => ?_, ?_⟩
  · rw [hfind, List.find?_eq_some]
    simp
  · rw [hfind, List.find?_eq_none]
    simp
  · unfold getEventFromEventsOrThrow
    cases h : getEventFromEvents events d <;> simp
  · unfold getEventFromEventsOrThrow
    cases h : getEventFromEvents events d with
    | none =>
        simp only [h]
        rw [hfind] at h
        rw [List.find?_eq_none] at h
        simpa using h
    | some needle =>
        simp only [h]
        constructor
        · intro hc
          exact absurd hc (by simp)
        · intro hall
          have hmm := getEventFromEvents_mem_matches h
          have := hall needle hmm.1
          rw [hmm.2] at this
          cases this

/-- C6 counterexample: the error raised for a zero-match sequence is
"unable to find event <name>", not "event not found: <name>" as the
claim states. -/
theorem eventMatcher_message_differs :
    getEventFromEventsOrThrow [] sampleDescriptor
      = Except.error "unable to find event CollectionCreated"
  ∧ ("unable to find event CollectionCreated" : String)
      ≠ "event not found: CollectionCreated" := by
  constructor
  · rfl
  · decide

/-- C5: if `signAndSendReturningEvent` returns an event, that event is
in the event list produced by the underlying submission and matches the
descriptor; submission failures are propagated verbatim. -/
theorem signAndSendReturningEvent_spec
    (once : Nat → Except String (List Event)) (d : EventDescriptor) :
    (∀ ev, (signAndSendReturningEvent once d).1 = Except.ok ev →
       ∃ events, (signAndSend 0 once 0).1 = Except.ok events
         ∧ ev ∈ events ∧ descriptorIs d ev = true)
  ∧ (∀ msg, (signAndSend 0 once 0).1 = Except.error msg →
       (signAndSendReturningEvent once d).1 = Except.error msg) := by
  constructor
  · intro ev hok
    unfold signAndSendReturningEvent at hok
    cases hsub : signAndSend 0 once 0 with
    | mk res calls =>
        cases res with
        | error e => rw [hsub] at hok; cases hok
        | ok events =>
            rw [hsub] at hok
            simp only at hok
            refine ⟨events, rfl, ?_⟩
            unfold getEventFromEventsOrThrow at hok
            cases hg : getEventFromEvents events d with
            | none => rw [hg] at hok; cases hok
            | some needle =>
                rw [hg] at hok
                cases hok
                exact getEventFromEvents_mem_matches hg
  · intro msg herr
    unfold signAndSendReturningEvent
    cases hsub : signAndSend 0 once 0 with
    | mk res calls =>
        cases res with
        | error e =>
            rw [hsub] at herr
            cases herr
            rfl
        | ok events => rw [hsub] at herr; cases herr

/-- Witness for C5 at a concrete stub and descriptor. -/
theorem signAndSendReturningEvent_spec_witness :
    ∃ events, (signAndSend 0 sampleOnce 0).1 = Except.ok events
      ∧ sampleEvent ∈ events ∧ descriptorIs sampleDescriptor sampleEvent = true :=
  (signAndSendReturningEvent_spec sampleOnce sampleDescriptor).1 sampleEvent rfl

/-- A single-attempt stub that fails its first call and succeeds
afterwards (the N = 1 ≤ 10 instance of the claim's schedule). -/
def failThenSucceedOnce : Nat → Except String (List Event) :=
  fun n => if n = 0 then Except.error "stub failure" else Except.ok [sampleEvent]

/-- A single-attempt stub that always fails. -/
def alwaysFailOnce : Nat → Except String (List Event) :=
  fun _ => Except.error "stub failure"

/-- C1 (code bug): `signAndSend` never retries.  Called as the code
calls it (attempt 0), it invokes the single-attempt submitter exactly
once and rethrows its failure unchanged — with a stub failing only the
first attempt it still fails, and with an always-failing stub it fails
after 1 attempt, not 11; the `attempt > 10` guard (which would produce
the terminal "unable to send transaction" error) is reachable only if
the caller itself passes `attempt = 11`, which nothing in the repository
does. -/
theorem signAndSend_never_retries :
    signAndSend 0 failThenSucceedOnce 0 = (Except.error "stub failure", 1)
  ∧ signAndSend 0 alwaysFailOnce 0 = (Except.error "stub failure", 1)
  ∧ signAndSend 11 alwaysFailOnce 0
      = (Except.error "unable to send transaction", 0) := by
  refine ⟨rfl, rfl, rfl⟩

/-- C3 counterexample: a configuration with `TOKEN_COUNT_IN_BATCH = 0` —
outside the claimed bound `1 ≤ tokenCountInBatch ≤ 250` — and a signer
key present passes the startup checks and proceeds, instead of
terminating with a non-zero status as the claim requires. -/
theorem startupCheck_lower_bound_not_enforced :
    startupCheck 0 (some "//Bot") = StartupOutcome.proceed
  ∧ startupCheck 0 (some "//Bot") ≠ StartupOutcome.exitWith 1 := by
  refine ⟨rfl, by decide⟩

/-- C3 (amended): the startup check enforces only the upper bound
`tokenCountInBatch ≤ 250` and the presence (truthiness) of the signer
key: it proceeds exactly when `tokenCountInBatch ≤ 250` and the key is
set and non-empty — including values below 1 — and otherwise exits with
status 1 before any transaction work. -/
theorem startupCheck_spec (t : Int) (k : Option String) :
    (startupCheck t k = StartupOutcome.proceed ↔
       t ≤ 250 ∧ botKeyTruthy k = true)
  ∧ (startupCheck t k = StartupOutcome.proceed
       ∨ startupCheck t k = StartupOutcome.exitWith 1) := by
  unfold startupCheck
  constructor
  · constructor
    · intro h
      by_cases h1 : t > 250
      · simp [h1] at h
      · simp [h1] at h
        refine ⟨by omega, ?_⟩
        by_cases h2 : botKeyTruthy k <;> simp [h2] at h ⊢
    · rintro ⟨h1, h2⟩
      simp [h2, show ¬ t > 250 by omega]
  · by_cases h1 : t > 250
    · simp [h1]
    · by_cases h2 : botKeyTruthy k <;> simp [h1, h2]

/-- Status streams made only of non-terminal callbacks are skipped by
the `signAndSendOnce` callback. -/
theorem resolveStatuses_skip (pre rest : List TxStatus)
    (hpre : ∀ s ∈ pre, s = TxStatus.other) :
    resolveStatuses (pre ++ rest) = resolveStatuses rest := by
  induction pre with
  | nil => rfl
  | cons s pre ih =>
      have hs := hpre s (by simp)
      subst hs
      simp only [List.cons_append, resolveStatuses]
      exact ih (fun x hx => hpre x (by simp [hx]))

/-- C7: one `signAndSendOnce` attempt settles exactly once: with
`Success` carrying the ordered events of the inclusion the first time
the stream reports in-block or finalized (any earlier callbacks being
non-terminal), and with `Failure` on the first terminal-error status or
when the broadcast itself rejects. -/
theorem signAndSendOnce_resolution (head : ChainHeader) (msg : String)
    (events : List Event) (pre rest : List TxStatus)
    (hpre : ∀ s ∈ pre, s = TxStatus.other) :
    (signAndSendOnce head (fun _ => BroadcastOutcome.rejected msg)).2
      = some (Except.error msg)
  ∧ (signAndSendOnce head (fun _ => BroadcastOutcome.statuses
        (pre ++ TxStatus.isInBlock events :: rest))).2
      = some (Except.ok events)
  ∧ (signAndSendOnce head (fun _ => BroadcastOutcome.statuses
        (pre ++ TxStatus.isFinalized events :: rest))).2
      = some (Except.ok events)
  ∧ (signAndSendOnce head (fun _ => BroadcastOutcome.statuses
        (pre ++ TxStatus.isError msg :: rest))).2
      = some (Except.error ("transaction error: " ++ msg)) := by
  refine ⟨rfl, ?_, ?_, ?_⟩ <;>
    simp [signAndSendOnce, resolveStatuses_skip _ _ hpre, resolveStatuses]

/-- Witness for C7: a concrete attempt whose stream is one non-terminal
callback followed by an in-block inclusion. -/
theorem signAndSendOnce_resolution_witness :
    (signAndSendOnce { number := 100, hash := "0xabc" }
        (fun _ => BroadcastOutcome.statuses
          [TxStatus.other, TxStatus.isInBlock [sampleEvent]])).2
      = some (Except.ok [sampleEvent]) :=
  (signAndSendOnce_resolution { number := 100, hash := "0xabc" } "boom"
    [sampleEvent] [TxStatus.other] [] (by decide)).2.1

/-- C9: every attempt signs with the automatic nonce `-1` and a
mortality era of period 1024 anchored at the block number of the chain
head fetched at the start of that same attempt (whose hash is also
passed along). -/
theorem signAndSendOnce_signing_params (head : ChainHeader)
    (broadcast : SigningParams → BroadcastOutcome) :
    (signAndSendOnce head broadcast).1.nonce = -1
  ∧ (signAndSendOnce head broadcast).1.eraPeriod = 1024
  ∧ (signAndSendOnce head broadcast).1.eraCurrent = head.number
  ∧ (signAndSendOnce head broadcast).1.blockHash = head.hash := by
  refine ⟨rfl, rfl, rfl, rfl⟩

/-- C2: for every `total ≥ 0` and `maxBatchSize ≥ 1` the batch plan
partitions `1..total` exactly — lengths sum to `total`, each batch
starts where the previous one ended, the first offset is 1 when
`total > 0`, every length is in `1..maxBatchSize`, no batch is emitted
for `total = 0` — and for total 1000 with batch size 100 exactly 10
mint-batch calls are issued covering token ids 1-1000 with no gaps or
overlaps, each tagged with the created collection's id (here 42). -/
theorem plan_partitions (total B : Nat) (hB : 1 ≤ B) :
    ((plan total B).map Prod.snd).sum = total
  ∧ (∀ i : Nat, ∀ h1 : i + 1 < (plan total B).length,
      ((plan total B).get ⟨i + 1, h1⟩).1
        = ((plan total B).get ⟨i, Nat.lt_of_succ_lt h1⟩).1
          + ((plan total B).get ⟨i, Nat.lt_of_succ_lt h1⟩).2)
  ∧ (0 < total → ∃ h0 : 0 < (plan total B).length,
      ((plan total B).get ⟨0, h0⟩).1 = 1)
  ∧ (∀ e ∈ plan total B, 0 < e.2 ∧ e.2 ≤ B)
  ∧ (total = 0 → plan total B = [])
  ∧ mintBatchCalls 42 1000 100 =
      [(42, 1, 100), (42, 101, 100), (42, 201, 100), (42, 301, 100),
       (42, 401, 100), (42, 501, 100), (42, 601, 100), (42, 701, 100),
       (42, 801, 100), (42, 901, 100)] := by
  have hfullsum :
      (((List.range (total / B)).map (fun j => (j * B + 1, B))).map
        Prod.snd).sum = total / B * B := by
    rw [List.map_map]
    have hcomp : (Prod.snd ∘ fun j : Nat => (j * B + 1, B))
        = (fun _ : Nat => B) := rfl
    rw [hcomp, List.map_const', List.sum_replicate, List.length_range,
      smul_eq_mul]
  have hdm := Nat.div_add_mod total B
  refine ⟨?_, ?_, ?_, ?_, ?_, by decide⟩
  · rcases Nat.eq_zero_or_pos (total % B) with h | h
    · have hplan : plan total B
          = (List.range (total / B)).map (fun j => (j * B + 1, B)) := by
        unfold plan
        rw [h]
        simp
      rw [hplan, hfullsum, Nat.mul_comm]
      rw [h] at hdm
      simpa using hdm
    · have hplan : plan total B
          = (List.range (total / B)).map (fun j => (j * B + 1, B))
            ++ [(total / B * B + 1, total % B)] := by
        unfold plan
        rw [if_pos (show total % B > 0 from h)]
      rw [hplan, List.map_append, List.sum_append, hfullsum]
      rw [Nat.mul_comm B (total / B)] at hdm
      simpa using hdm
  · intro i h1
    have hlen := plan_length total B
    have hi : i < total / B := by
      rcases Nat.eq_zero_or_pos (total % B) with hr | hr <;>
        simp [hr] at hlen <;> omega
    rw [plan_get, plan_get]
    simp only [if_pos hi]
    rw [Nat.succ_mul]
    exact Nat.add_right_comm (i * B) B 1
  · intro ht
    have hlen := plan_length total B
    have h0 : 0 < (plan total B).length := by
      rcases Nat.eq_zero_or_pos (total % B) with hr | hr
      · rw [hr] at hdm hlen
        simp only [Nat.lt_irrefl, gt_iff_lt, if_false, Nat.add_zero] at hlen
        rcases Nat.eq_zero_or_pos (total / B) with hf | hf
        · rw [hf, Nat.mul_zero] at hdm
          omega
        · rw [hlen]
          exact hf
      · rw [if_pos (show total % B > 0 from hr)] at hlen
        rw [hlen]
        exact Nat.succ_pos _
    refine ⟨h0, ?_⟩
    rw [plan_get]
    simp
  · intro e he
    unfold plan at he
    rcases List.mem_append.mp he with h | h
    · rcases List.mem_map.mp h with ⟨j, hj, rfl⟩
      exact ⟨Nat.lt_of_lt_of_le Nat.zero_lt_one hB, Nat.le_refl B⟩
    · rcases Nat.eq_zero_or_pos (total % B) with hr | hr
      · simp [hr] at h
      · rw [if_pos (show total % B > 0 from hr)] at h
        rcases List.mem_singleton.mp h with rfl
        exact ⟨hr, Nat.le_of_lt (Nat.mod_lt total (by omega))⟩
  · intro h
    subst h
    simp [plan]

/-- Witness for C2 at total 5, batch size 2 (plan `(1,2),(3,2),(5,1)`). -/
theorem plan_partitions_witness :
    ((plan 5 2).map Prod.snd).sum = 5
  ∧ (∃ h0 : 0 < (plan 5 2).length, ((plan 5 2).get ⟨0, h0⟩).1 = 1)
  ∧ (∀ e ∈ plan 5 2, 0 < e.2 ∧ e.2 ≤ 2) :=
  ⟨(plan_partitions 5 2 (by decide)).1,
   (plan_partitions 5 2 (by decide)).2.2.1 (by decide),
   (plan_partitions 5 2 (by decide)).2.2.2.1⟩

/-- The address `main` mints to (`testAccount.address`) in the concrete
partial-failure scenario, and the stub that rejects exactly the 4th of
the 10 planned batch submissions (the batch starting at token id 301)
after retry exhaustion. -/
def sampleAddress : String := "bot-address"

def submitFailingFourthBatch : List Recipient → Except String (List Event) :=
  fun payload =>
    if payload = mintBatchPayload sampleAddress 42 301 100 then
      Except.error "submission exhausted"
    else Except.ok []

/-- C4: per-batch mint failure is absorbed, not escalated: the batch
loop of a collection never aborts — it returns the per-batch outcome of
every planned batch in order, whatever the submission outcomes are — and
in the concrete 10-batch run where only the 4th batch's submission
fails, batches 5-10 are still attempted and the run completes with 9
successes and 1 failure. -/
theorem mintBatch_failures_absorbed
    (submit : List Recipient → Except String (List Event))
    (address : String) (collectionId : Nat) (entries : List (Nat × Nat)) :
    runCollectionBatches submit address collectionId entries
      = Except.ok (entries.map (fun e =>
          match submit (mintBatchPayload address collectionId e.1 e.2) with
          | Except.ok _ => true
          | Except.error _ => false))
  ∧ runCollectionBatches submitFailingFourthBatch sampleAddress 42
      (plan 1000 100)
      = Except.ok [true, true, true, false, true, true, true, true, true, true]
  ∧ [true, true, true, false, true, true, true, true, true, true].count true = 9
  ∧ [true, true, true, false, true, true, true, true, true, true].count false
      = 1 := by
  refine ⟨?_, by rfl, by decide, by decide⟩
  induction entries with
  | nil => rfl
  | cons e rest ih =>
      cases hs : submit (mintBatchPayload address collectionId e.1 e.2) <;>
        simp only [runCollectionBatches, List.map_cons, mintBatch, hs, ih] <;>
        rfl

/-- Every mint-batch action in a `runMain` trace is preceded by the
creation of its collection, whose confirmed event yields exactly the
identifier the batch carries. -/
theorem runMain_mint_after_create
    (createOutcome : Nat → Except String Event) (total B : Nat)
    (cols : List Nat) (cid off len : Nat)
    (hmem : Action.mintBatchCall cid off len
      ∈ (runMain createOutcome total B cols).1) :
    ∃ c ev l1 l2 l3,
      (runMain createOutcome total B cols).1
        = l1 ++ Action.createCollection c
            :: (l2 ++ Action.mintBatchCall cid off len :: l3)
      ∧ createOutcome c = Except.ok ev
      ∧ cid = extractCollectionId ev := by
  induction cols with
  | nil => simp [runMain] at hmem
  | cons c rest ih =>
      cases hc : createOutcome c with
      | error msg =>
          rw [runMain, hc] at hmem
          simp at hmem
      | ok ev =>
          rw [runMain, hc] at hmem
          simp only at hmem
          rcases List.mem_cons.mp hmem with heq | hmem2
          · cases heq
          · rcases List.mem_append.mp hmem2 with hmap | hrest
            · have hcid : cid = extractCollectionId ev := by
                rcases List.mem_map.mp hmap with ⟨e, he, heq⟩
                cases heq
                rfl
              obtain ⟨s, t, hst⟩ := List.append_of_mem hmap
              refine ⟨c, ev, [], s,
                t ++ (runMain createOutcome total B rest).1, ?_, hc, hcid⟩
              rw [runMain, hc]
              simp only [hst]
              simp [List.append_assoc]
            · obtain ⟨c2, ev2, l1, l2, l3, hdecomp, hco, hcid⟩ := ih hrest
              refine ⟨c2, ev2,
                Action.createCollection c
                  :: ((plan total B).map (fun e =>
                        Action.mintBatchCall (extractCollectionId ev) e.1 e.2)
                      ++ l1),
                l2, l3, ?_, hco, hcid⟩
              rw [runMain, hc]
              simp only [hdecomp]
              simp [List.append_assoc]

/-- C8: in every run, no mint batch for a collection is constructed or
submitted before that collection's identifier has been extracted from
its confirmed collection-created event: every mint-batch action in the
trace is preceded by a creation whose successful outcome's first data
field is exactly the collection id the batch carries. -/
theorem mint_batches_after_creation
    (createOutcome : Nat → Except String Event)
    (collectionCount total B cid off len : Nat)
    (hmem : Action.mintBatchCall cid off len
      ∈ (mainTrace createOutcome collectionCount total B).1) :
    ∃ c ev l1 l2 l3,
      (mainTrace createOutcome collectionCount total B).1
        = l1 ++ Action.createCollection c
            :: (l2 ++ Action.mintBatchCall cid off len :: l3)
      ∧ createOutcome c = Except.ok ev
      ∧ cid = extractCollectionId ev :=
  runMain_mint_after_create createOutcome total B
    (List.range' 1 collectionCount) cid off len hmem

/-- A stubbed creation outcome: every collection-creation submission
confirms with a `CollectionCreated` event whose first data field is
42. -/
def sampleCreateOutcome : Nat → Except String Event :=
  fun _ => Except.ok sampleEvent

/-- Witness for C8: one collection of 2 tokens in batches of 1, created
with id 42; the first mint batch is preceded in the trace by the
creation that produced 42. -/
theorem mint_batches_after_creation_witness :
    ∃ c ev l1 l2 l3,
      (mainTrace sampleCreateOutcome 1 2 1).1
        = l1 ++ Action.createCollection c
            :: (l2 ++ Action.mintBatchCall 42 1 1 :: l3)
      ∧ sampleCreateOutcome c = Except.ok ev
      ∧ 42 = extractCollectionId ev :=
  mint_batches_after_creation sampleCreateOutcome 1 2 1 42 1 1 (by decide)

/-- A concrete `MintCreateToken` with no `unitPrice`, as the
orchestrator builds them. -/
def sampleCreateToken : MintCreateToken :=
  { tokenId := 7, initialSupply := 1, unitPrice := none, sufficiency := none,
    cap := none, behavior := none, listingForbidden := none,
    attributes := [("id", "7")] }

/-- C10: `fixMintCreateToken` is the identity whenever `unitPrice` is
undefined, and whenever the registry lacks the sufficiency-param type;
since the orchestrator's mint payloads never set `unitPrice`, every
payload built by `mintBatch` passes through `batchMint`'s fixup
unchanged; and `batchMint`'s recipient fixup preserves the number and
order of recipients. -/
theorem fixMintCreateToken_identity (hasSufficiencyType : Bool)
    (ct : MintCreateToken) (address : String) (cid start count : Nat) :
    (ct.unitPrice = none → fixMintCreateToken hasSufficiencyType ct = ct)
  ∧ fixMintCreateToken false ct = ct
  ∧ batchMintRecipients hasSufficiencyType
      (mintBatchPayload address cid start count)
      = mintBatchPayload address cid start count
  ∧ (∀ rs : List Recipient,
      (batchMintRecipients hasSufficiencyType rs).length = rs.length)
  ∧ (∀ rs : List Recipient, ∀ i : Nat,
      ∀ h2 : i < (batchMintRecipients hasSufficiencyType rs).length,
      ∀ h : i < rs.length,
      ((batchMintRecipients hasSufficiencyType rs).get ⟨i, h2⟩).accountId
        = (rs.get ⟨i, h⟩).accountId) := by
  refine ⟨?_, ?_, ?_, ?_, ?_⟩
  · intro h
    unfold fixMintCreateToken
    rw [h]
    cases hasSufficiencyType <;> rfl
  · unfold fixMintCreateToken
    cases hu : ct.unitPrice <;> rfl
  · unfold batchMintRecipients mintBatchPayload
    rw [List.map_map]
    apply List.map_congr_left
    intro a ha
    cases hasSufficiencyType <;> rfl
  · intro rs
    unfold batchMintRecipients
    simp
  · intro rs i h2 h
    rw [List.get_eq_getElem, List.get_eq_getElem]
    have hmap : batchMintRecipients hasSufficiencyType rs
        = rs.map (fun recipient =>
            match recipient.params with
            | MintParams.createToken ct =>
                { recipient with
                  params := MintParams.createToken
                    (fixMintCreateToken hasSufficiencyType ct) }
            | MintParams.mint _ _ _ => recipient) := rfl
    simp only [hmap, List.getElem_map]
    cases hp : rs[i].params <;> simp [hp]

/-- Witness for C10: the fixup leaves a concrete no-`unitPrice` token
unchanged even when the registry has the sufficiency type, and the
recipient fixup preserves the length of a concrete payload. -/
theorem fixMintCreateToken_identity_witness :
    fixMintCreateToken true sampleCreateToken = sampleCreateToken
  ∧ (batchMintRecipients true (mintBatchPayload "bot" 42 1 2)).length
      = (mintBatchPayload "bot" 42 1 2).length :=
  ⟨(fixMintCreateToken_identity true sampleCreateToken "bot" 42 1 2).1 rfl,
   (fixMintCreateToken_identity true sampleCreateToken "bot" 42 1 2).2.2.2.1
     (mintBatchPayload "bot" 42 1 2)⟩

end Minter
